import Mathlib

/-!
Shallow embedding of the BatteryLevel Domoticz plugin (src/plugin.py,
current MQTT version 0.7.0, together with the legacy plugin versions kept
in src/unnamed/part_000).  The embedding covers:

* the band classification chain of `on_message` (plugin.py lines 255-262);
* the threshold configuration loader of `BasePlugin.onStart`
  (plugin.py lines 110-152, identical in the legacy versions);
* the snapshot reconciliation pass of `on_message` together with
  `UpdateDevice` (plugin.py lines 236-316);
* the fetch-error branch of `on_message` (plugin.py lines 264-267);
* the controller freshness window of the legacy `pollnodes`
  (part_000 lines 206-222) and the heartbeat scheduler
  (plugin.py lines 205-212);
* the identifier derivation of spec section 4.4, modelled from the spec
  because the code for it predates the sources kept in this repository.
-/

/-- Severity band of a battery level, named after the four plugin icons
(`batterylevelfull`, `batterylevelok`, `batterylevellow`,
`batterylevelempty`). -/
inductive Band where
  | Full
  | Ok
  | Low
  | Empty
deriving DecidableEq

/-- Numeric severity of a band: `Empty < Low < Ok < Full`. -/
def Band.severity : Band → Nat
  | Band.Empty => 0
  | Band.Low => 1
  | Band.Ok => 2
  | Band.Full => 3

/-- The three configured battery-level thresholds (the module globals
`batterylevelfull`, `batterylevelok`, `batterylevellow` of plugin.py). -/
structure BandThresholds where
  full : Int
  ok : Int
  low : Int
deriving DecidableEq

/-- Band classification chain of `on_message` (plugin.py lines 255-262):
descending threshold tests against `full`, then `ok`, then `low`,
otherwise empty. -/
def classify (t : BandThresholds) (levelBatt : Int) : Band :=
  if levelBatt ≥ t.full then Band.Full
  else if levelBatt ≥ t.ok then Band.Ok
  else if levelBatt ≥ t.low then Band.Low
  else Band.Empty

/-- Which of the three threshold parameters a configuration report is
about (`Mode2` = full, `Mode3` = ok, `Mode4` = low). -/
inductive FieldId where
  | fullF
  | okF
  | lowF
deriving DecidableEq

/-- One `Domoticz.Error` report produced while loading a threshold field:
either the parameter did not parse as an integer, or it was clamped to the
stated bound. -/
inductive CfgWarning where
  | invalidParam (f : FieldId)
  | clampedLow (f : FieldId) (bound : Int)
  | clampedHigh (f : FieldId) (bound : Int)
deriving DecidableEq

/-- Loading of one threshold parameter in `BasePlugin.onStart`
(plugin.py lines 110-152).  `input = none` models `int(Parameters[...])`
raising (non-numeric parameter), in which case the field keeps its default
from `BasePlugin.__init__` and one error is reported; a numeric value is
clamped to `[lo, hi]`, with one error reported per clamp. -/
def loadField (f : FieldId) (dflt lo hi : Int) (input : Option Int) :
    Int × List CfgWarning :=
  match input with
  | none => (dflt, [CfgWarning.invalidParam f])
  | some temp =>
    if temp < lo then (lo, [CfgWarning.clampedLow f lo])
    else if temp > hi then (hi, [CfgWarning.clampedHigh f hi])
    else (temp, [])

/-- The threshold-loading sequence of `BasePlugin.onStart`: field `Mode2`
(full, default 75, bounds 75..99), then `Mode3` (ok, default 50, bounds
40..75), then `Mode4` (low, default 25, bounds 10..25), each field handled
independently of the others. -/
def loadThresholds (mode2 mode3 mode4 : Option Int) :
    BandThresholds × List CfgWarning :=
  let f := loadField FieldId.fullF 75 75 99 mode2
  let o := loadField FieldId.okF 50 40 75 mode3
  let l := loadField FieldId.lowF 25 10 25 mode4
  (⟨f.1, o.1, l.1⟩, f.2 ++ o.2 ++ l.2)

/-- Modelled from the spec: `deriveNodeId` (spec section 4.4), the packed
hub-identifier decoding used by plugin versions before 0.4.0, whose code is
not among the source files kept in this repository.  Extract byte 2
(bits 16-23) and byte 1 (bits 8-15) of the packed 32-bit value, combine
them as `(byte2 <<< 8) ||| byte1`, and fall back to the full packed value
when that combination is zero. -/
def deriveNodeId (packedId : Nat) : Nat :=
  let byte2 := (packedId >>> 16) % 256
  let byte1 := (packedId >>> 8) % 256
  let nodeId := (byte2 <<< 8) ||| byte1
  if nodeId = 0 then packedId else nodeId

/-- The fields of a Domoticz device that the plugin reads and writes
(`Devices[Unit].nValue`, `.sValue`, `.TimedOut`, `.Image`). -/
structure Device where
  nValue : Int
  sValue : String
  timedOut : Bool
  image : Nat
deriving DecidableEq

/-- Keyword arguments of one `UpdateDevice` call, restricted to the
keywords the plugin's call sites actually pass (`nValue`, `sValue`,
`TimedOut`, `Image`); `none` models an absent keyword. -/
structure UpdateArgs where
  nValue : Option Int
  sValue : Option String
  timedOut : Option Bool
  image : Option Nat
deriving DecidableEq

/-- `UpdateDevice` (plugin.py lines 270-316) applied to a device that
exists: compute the effective `nValue`/`sValue` (falling back to the
stored ones), detect a change, and add `TimedOut`/`Image` to the update
arguments only when they differ from the stored fields.  Returns the
arguments passed to `Devices[Unit].Update` together with the device after
that call, or `none` when no change is detected and the write is
suppressed. -/
def applyUpdate (dev : Device) (kw : UpdateArgs) : Option (UpdateArgs × Device) :=
  let nV := kw.nValue.getD dev.nValue
  let sV := kw.sValue.getD dev.sValue
  let change0 : Bool := decide (nV ≠ dev.nValue ∨ sV ≠ dev.sValue)
  let tPart : Option Bool :=
    match kw.timedOut with
    | some t => if t = dev.timedOut then none else some t
    | none => none
  let iPart : Option Nat :=
    match kw.image with
    | some i => if i = dev.image then none else some i
    | none => none
  if change0 || tPart.isSome || iPart.isSome then
    some (⟨some nV, some sV, tPart, iPart⟩,
          ⟨nV, sV, tPart.getD dev.timedOut, iPart.getD dev.image⟩)
  else none

/-- A downstream effect emitted during one tick: a
`Domoticz.Device(...).Create()` call or a
`Devices[Unit].Update(**update_args)` call. -/
inductive DevAction where
  | create (unit : Nat)
  | update (unit : Nat) (args : UpdateArgs)
deriving DecidableEq

/-- The device unit an action addresses. -/
def DevAction.unit : DevAction → Nat
  | DevAction.create u => u
  | DevAction.update u _ => u

/-- One node record of the `getNodes` MQTT response (plugin.py lines
240-246): id, name, and the value of the `minBatteryLevel` key when
present. -/
structure MqttNode where
  id : Nat
  name : String
  minBatteryLevel : Option Int
deriving DecidableEq

/-- A freshly created Domoticz `Custom` device: the host initialises it
with `nValue = 0`, empty `sValue`, not timed out, and the default image. -/
def newDevice : Device := ⟨0, "", false, 0⟩

/-- Device-creation half of the first `on_message` loop (plugin.py lines
240-246): every response node carrying a `minBatteryLevel` key whose id is
not yet a device unit gets a device created for it. -/
def createDevices : List (Nat × Device) → List MqttNode →
    List (Nat × Device) × List DevAction
  | devices, [] => (devices, [])
  | devices, n :: rest =>
    match n.minBatteryLevel with
    | some _ =>
      if (devices.lookup n.id).isSome then createDevices devices rest
      else
        let r := createDevices (devices ++ [(n.id, newDevice)]) rest
        (r.1, DevAction.create n.id :: r.2)
    | none => createDevices devices rest

/-- Insertion into an association list with Python-dict semantics:
overwrite the existing key or append a fresh one. -/
def dictInsert (d : List (Nat × Int)) (k : Nat) (v : Int) : List (Nat × Int) :=
  if (d.lookup k).isSome then
    d.map (fun e => if e.1 == k then (k, v) else e)
  else d ++ [(k, v)]

/-- Dictionary-building half of the first `on_message` loop (plugin.py
line 246): `BatteryNodes[int(node["id"])] = int(node["minBatteryLevel"])`
for every response node carrying the key.  The source performs this in the
same loop as `createDevices`; the two halves do not interact (creation
reads only `Devices`, the dictionary reads only the response), so they are
split here into two folds of the same list. -/
def buildDict : List (Nat × Int) → List MqttNode → List (Nat × Int)
  | d, [] => d
  | d, n :: rest =>
    match n.minBatteryLevel with
    | some lvl => buildDict (dictInsert d n.id lvl) rest
    | none => buildDict d rest

/-- Keyword arguments of the `UpdateDevice(Unit, TimedOut=True)` call
(plugin.py line 253 and line 267). -/
def staleKwargs : UpdateArgs := ⟨none, none, some true, none⟩

/-- Keyword arguments of the
`UpdateDevice(Unit, sValue=..., TimedOut=False, Image=...)` call
(plugin.py line 263), with `imgs` the host's icon table mapping each band's
icon to its `Images[icon].ID`. -/
def updateKwargs (t : BandThresholds) (imgs : Band → Nat) (lvl : Int) :
    UpdateArgs :=
  ⟨none, some (toString lvl), some false, some (imgs (classify t lvl))⟩

/-- One iteration of the second `on_message` loop (plugin.py lines
248-263) on the device entry `e`: a missing dictionary entry (`KeyError`)
yields the timed-out call, a present battery level yields the
value-update call; the result is the stepped device entry and the emitted
update action, if any. -/
def stepEntry (t : BandThresholds) (imgs : Band → Nat)
    (dict : List (Nat × Int)) (e : Nat × Device) :
    (Nat × Device) × Option DevAction :=
  match dict.lookup e.1 with
  | none =>
    match applyUpdate e.2 staleKwargs with
    | some (args, d) => ((e.1, d), some (DevAction.update e.1 args))
    | none => (e, none)
  | some lvl =>
    match applyUpdate e.2 (updateKwargs t imgs lvl) with
    | some (args, d) => ((e.1, d), some (DevAction.update e.1 args))
    | none => (e, none)

/-- The success branch of `on_message` (plugin.py lines 236-263): create
devices for new battery nodes, build the `BatteryNodes` dictionary, then
walk every device of the plugin, stepping each entry and collecting the
emitted actions. -/
def processSnapshot (t : BandThresholds) (imgs : Band → Nat)
    (devices : List (Nat × Device)) (result : List MqttNode) :
    List (Nat × Device) × List DevAction :=
  let c := createDevices devices result
  let dict := buildDict [] result
  (c.1.map (fun e => (stepEntry t imgs dict e).1),
   c.2 ++ c.1.filterMap (fun e => (stepEntry t imgs dict e).2))

/-- The error branch of `on_message` (plugin.py lines 264-267): every
device of the plugin gets `UpdateDevice(Unit, TimedOut=True)`. -/
def processError (devices : List (Nat × Device)) :
    List (Nat × Device) × List DevAction :=
  (devices.map (fun e =>
    match applyUpdate e.2 staleKwargs with
    | some (_, d) => (e.1, d)
    | none => e),
   devices.filterMap (fun e =>
    match applyUpdate e.2 staleKwargs with
    | some (args, _) => some (DevAction.update e.1 args)
    | none => none))

/-- `on_message` on a response for the subscribed topic (plugin.py lines
236-267): `some result` models `r["success"]` true with node list
`result`, `none` models `r["success"]` false. -/
def onMessage (t : BandThresholds) (imgs : Band → Nat)
    (devices : List (Nat × Device)) (msg : Option (List MqttNode)) :
    List (Nat × Device) × List DevAction :=
  match msg with
  | some result => processSnapshot t imgs devices result
  | none => processError devices

/-- Controller selection of the legacy `pollnodes` (part_000 lines
206-222): walk the candidate cache files (name, mtime in minutes) in
order, skip any whose mtime is older than the fixed 2-hour (120-minute)
freshness window, and stop at the first fresh one. -/
def selectController (now : Int) : List (String × Int) → Option String
  | [] => none
  | c :: rest =>
    if c.2 < now - 120 then selectController now rest
    else some c.1

/-- `BasePlugin.onHeartbeat` scheduling (plugin.py lines 205-212), with
times in minutes: a poll fires when `now` has reached `nextupdate`, and
`nextupdate` is then advanced to `now + pollinterval` regardless of the
outcome of the poll. -/
def onHeartbeatStep (pollinterval nextupdate now : Int) : Bool × Int :=
  if now ≥ nextupdate then (true, now + pollinterval) else (false, nextupdate)

/-- A device entry holding battery level `lvl` right after a successful
value update with thresholds `t` and icon table `imgs`: string value
`str(lvl)`, not timed out, the icon of the classified band, and an
untouched `nValue`. -/
def canonDevice (t : BandThresholds) (imgs : Band → Nat) (nv : Int)
    (lvl : Int) : Device :=
  ⟨nv, toString lvl, false, imgs (classify t lvl)⟩

/-- The device entries with unit `u`. -/
def entriesFor (u : Nat) (l : List (Nat × Device)) : List (Nat × Device) :=
  l.filter (fun e => e.1 == u)

/-- The actions addressing unit `u`. -/
def actionsFor (u : Nat) (acts : List DevAction) : List DevAction :=
  acts.filter (fun a => a.unit == u)

/-- C1: for every percentage `p` in 0..100 and every validated
`BandThresholds`, `classify` returns the single band decided by the
descending chain (`Full` if `p ≥ full`, else `Ok` if `p ≥ ok`, else `Low`
if `p ≥ low`, else `Empty`); with the default thresholds 75/50/25,
`classify 80 = Full` and `classify 30 = Low`. -/
theorem classify_descending_chain (t : BandThresholds) (p : Int)
    (hp0 : 0 ≤ p) (hp1 : p ≤ 100)
    (hf1 : 75 ≤ t.full) (hf2 : t.full ≤ 99)
    (ho1 : 40 ≤ t.ok) (ho2 : t.ok ≤ 75)
    (hl1 : 10 ≤ t.low) (hl2 : t.low ≤ 25) :
    (t.full ≤ p → classify t p = Band.Full) ∧
    (p < t.full → t.ok ≤ p → classify t p = Band.Ok) ∧
    (p < t.full → p < t.ok → t.low ≤ p → classify t p = Band.Low) ∧
    (p < t.full → p < t.ok → p < t.low → classify t p = Band.Empty) ∧
    classify ⟨75, 50, 25⟩ 80 = Band.Full ∧
    classify ⟨75, 50, 25⟩ 30 = Band.Low := by
  refine ⟨?_, ?_, ?_, ?_, by decide, by decide⟩ <;>
    · intros
      unfold classify
      split_ifs <;> first | rfl | omega

theorem classify_descending_chain_witness :
    ((0 : Int) ≤ 80 ∧ (80 : Int) ≤ 100) ∧
    classify ⟨75, 50, 25⟩ 80 = Band.Full ∧
    classify ⟨75, 50, 25⟩ 30 = Band.Low := by
  refine ⟨by decide, ?_, ?_⟩
  · exact ((classify_descending_chain ⟨75, 50, 25⟩ 80 (by decide) (by decide)
      (by decide) (by decide) (by decide) (by decide) (by decide)
      (by decide)).1 (by decide))
  · exact (classify_descending_chain ⟨75, 50, 25⟩ 80 (by decide) (by decide)
      (by decide) (by decide) (by decide) (by decide) (by decide)
      (by decide)).2.2.2.2.2

/-- C5: for all in-range thresholds and every `p` in 0..99, raising the
percentage by 1 never lowers the severity of the classified band
(`Empty < Low < Ok < Full`). -/
theorem classify_monotone (t : BandThresholds) (p : Int)
    (hf1 : 75 ≤ t.full) (hf2 : t.full ≤ 99)
    (ho1 : 40 ≤ t.ok) (ho2 : t.ok ≤ 75)
    (hl1 : 10 ≤ t.low) (hl2 : t.low ≤ 25)
    (hp0 : 0 ≤ p) (hp1 : p ≤ 99) :
    (classify t p).severity ≤ (classify t (p + 1)).severity := by
  unfold classify
  split_ifs <;> simp [Band.severity] <;> omega

theorem classify_monotone_witness :
    ((75 : Int) ≤ 75 ∧ (0 : Int) ≤ 74 ∧ (74 : Int) ≤ 99) ∧
    (classify ⟨75, 50, 25⟩ 74).severity ≤ (classify ⟨75, 50, 25⟩ (74 + 1)).severity := by
  refine ⟨by decide, ?_⟩
  exact classify_monotone ⟨75, 50, 25⟩ 74 (by decide) (by decide) (by decide)
    (by decide) (by decide) (by decide) (by decide) (by decide)

/-- C4: each threshold field is clamped independently to its own bound
pair (full to [75,99], ok to [40,75], low to [10,25]), with exactly one
warning per clamped field; `full=40` yields 75 plus one warning and
`full=150` yields 99 plus one warning. -/
theorem thresholds_clamped_per_field :
    ∀ f o l : Int,
      (loadThresholds (some f) (some o) (some l) =
        (⟨(loadField FieldId.fullF 75 75 99 (some f)).1,
          (loadField FieldId.okF 50 40 75 (some o)).1,
          (loadField FieldId.lowF 25 10 25 (some l)).1⟩,
         (loadField FieldId.fullF 75 75 99 (some f)).2 ++
           (loadField FieldId.okF 50 40 75 (some o)).2 ++
           (loadField FieldId.lowF 25 10 25 (some l)).2) ∧
       (loadField FieldId.fullF 75 75 99 (some f)).1 =
         (if f < 75 then 75 else if 99 < f then 99 else f) ∧
       (loadField FieldId.fullF 75 75 99 (some f)).2.length =
         (if f < 75 ∨ 99 < f then 1 else 0) ∧
       (loadField FieldId.okF 50 40 75 (some o)).1 =
         (if o < 40 then 40 else if 75 < o then 75 else o) ∧
       (loadField FieldId.okF 50 40 75 (some o)).2.length =
         (if o < 40 ∨ 75 < o then 1 else 0) ∧
       (loadField FieldId.lowF 25 10 25 (some l)).1 =
         (if l < 10 then 10 else if 25 < l then 25 else l) ∧
       (loadField FieldId.lowF 25 10 25 (some l)).2.length =
         (if l < 10 ∨ 25 < l then 1 else 0)) ∧
      loadThresholds (some 40) (some 50) (some 25) =
        (⟨75, 50, 25⟩, [CfgWarning.clampedLow FieldId.fullF 75]) ∧
      loadThresholds (some 150) (some 50) (some 25) =
        (⟨99, 50, 25⟩, [CfgWarning.clampedHigh FieldId.fullF 99]) := by
  intro f o l
  refine ⟨⟨rfl, ?_, ?_, ?_, ?_, ?_, ?_⟩, by decide, by decide⟩ <;>
    · simp only [loadField]
      split_ifs <;> simp_all <;> omega

/-- C8: a non-numeric threshold parameter is a configuration error for
that field only: the field keeps its default (full 75, ok 50, low 25),
exactly one report is issued for it, and the other two fields are
processed exactly as they would be otherwise. -/
theorem threshold_bad_field_keeps_default :
    ∀ m2 m3 m4 : Option Int,
      ((loadThresholds none m3 m4).1.full = 75 ∧
       (loadThresholds none m3 m4).2 =
         CfgWarning.invalidParam FieldId.fullF ::
           ((loadField FieldId.okF 50 40 75 m3).2 ++
            (loadField FieldId.lowF 25 10 25 m4).2) ∧
       (loadThresholds none m3 m4).1.ok = (loadThresholds m2 m3 m4).1.ok ∧
       (loadThresholds none m3 m4).1.low = (loadThresholds m2 m3 m4).1.low) ∧
      ((loadThresholds m2 none m4).1.ok = 50 ∧
       (loadThresholds m2 none m4).2 =
         (loadField FieldId.fullF 75 75 99 m2).2 ++
           CfgWarning.invalidParam FieldId.okF ::
             (loadField FieldId.lowF 25 10 25 m4).2 ∧
       (loadThresholds m2 none m4).1.full = (loadThresholds m2 m3 m4).1.full ∧
       (loadThresholds m2 none m4).1.low = (loadThresholds m2 m3 m4).1.low) ∧
      ((loadThresholds m2 m3 none).1.low = 25 ∧
       (loadThresholds m2 m3 none).2 =
         (loadField FieldId.fullF 75 75 99 m2).2 ++
           ((loadField FieldId.okF 50 40 75 m3).2 ++
            [CfgWarning.invalidParam FieldId.lowF]) ∧
       (loadThresholds m2 m3 none).1.full = (loadThresholds m2 m3 m4).1.full ∧
       (loadThresholds m2 m3 none).1.ok = (loadThresholds m2 m3 m4).1.ok) := by
  intro m2 m3 m4
  simp [loadThresholds, loadField]

/-- C10: whatever the three inputs (numeric or not), the effective
thresholds satisfy `10 ≤ low ≤ 25 < 40 ≤ ok ≤ 75 ≤ full ≤ 99`, so
`low < ok ≤ full` holds for every accepted configuration even though no
cross-field check is performed. -/
theorem thresholds_effective_ordering :
    ∀ m2 m3 m4 : Option Int,
      10 ≤ (loadThresholds m2 m3 m4).1.low ∧
      (loadThresholds m2 m3 m4).1.low ≤ 25 ∧
      40 ≤ (loadThresholds m2 m3 m4).1.ok ∧
      (loadThresholds m2 m3 m4).1.ok ≤ 75 ∧
      75 ≤ (loadThresholds m2 m3 m4).1.full ∧
      (loadThresholds m2 m3 m4).1.full ≤ 99 ∧
      (loadThresholds m2 m3 m4).1.low < (loadThresholds m2 m3 m4).1.ok ∧
      (loadThresholds m2 m3 m4).1.ok ≤ (loadThresholds m2 m3 m4).1.full := by
  intro m2 m3 m4
  rcases m2 with _ | f <;> rcases m3 with _ | o <;> rcases m4 with _ | l <;>
    · simp only [loadThresholds, loadField]
      (try split_ifs) <;> simp_all <;> omega

/-- C9 counterexample: the configuration full=75, ok=25, low=25 is not
accepted silently — the per-field clamp adjusts ok to 40 and reports one
warning. -/
theorem thresholds_overlap_example_clamped :
    loadThresholds (some 75) (some 25) (some 25) =
      (⟨75, 40, 25⟩, [CfgWarning.clampedLow FieldId.okF 40]) ∧
    ¬((loadThresholds (some 75) (some 25) (some 25)).2 = [] ∧
      (loadThresholds (some 75) (some 25) (some 25)).1.ok = 25) := by
  decide

/-- C9 (amended): the loader performs no cross-field check — any
configuration whose three fields are each within their own bounds is
accepted silently and unchanged, regardless of the relative order of the
fields (for example full=75, ok=75, low=25, which violates `ok < full`). -/
theorem thresholds_no_cross_field_check (f o l : Int)
    (hf1 : 75 ≤ f) (hf2 : f ≤ 99) (ho1 : 40 ≤ o) (ho2 : o ≤ 75)
    (hl1 : 10 ≤ l) (hl2 : l ≤ 25) :
    loadThresholds (some f) (some o) (some l) = (⟨f, o, l⟩, []) := by
  simp only [loadThresholds, loadField]
  split_ifs <;> first | rfl | omega

theorem thresholds_no_cross_field_check_witness :
    ((75 : Int) ≤ 75 ∧ (75 : Int) ≤ 99 ∧ (40 : Int) ≤ 75 ∧
     (10 : Int) ≤ 25 ∧ (25 : Int) ≤ 25) ∧
    loadThresholds (some 75) (some 75) (some 25) = (⟨75, 75, 25⟩, []) ∧
    ¬((75 : Int) < 75) := by
  refine ⟨by decide, ?_, by decide⟩
  exact thresholds_no_cross_field_check 75 75 25 (by decide) (by decide)
    (by decide) (by decide) (by decide) (by decide)

/-- C7 (modelled from the spec): `deriveNodeId` combines byte 2 and
byte 1 of the packed 32-bit identifier as `(byte2 <<< 8) ||| byte1`,
falling back to the full packed value when that combination is zero; the
combined result fits in 16 bits; packed `0x00120034` derives `0x1200` and
packed `0x000000FF` falls back to `0x000000FF`. -/
theorem deriveNodeId_mid_bytes (p : Nat) (hp : p < 2 ^ 32) :
    ((((p >>> 16) % 256) <<< 8 ||| ((p >>> 8) % 256)) ≠ 0 →
      deriveNodeId p = (((p >>> 16) % 256) <<< 8 ||| ((p >>> 8) % 256)) ∧
      deriveNodeId p < 2 ^ 16) ∧
    ((((p >>> 16) % 256) <<< 8 ||| ((p >>> 8) % 256)) = 0 →
      deriveNodeId p = p) ∧
    deriveNodeId 0x00120034 = 0x1200 ∧
    deriveNodeId 0x000000FF = 0x000000FF := by
  refine ⟨?_, ?_, by decide, by decide⟩
  · intro h
    refine ⟨by simp [deriveNodeId, h], ?_⟩
    have h2 : ((p >>> 16) % 256) <<< 8 < 2 ^ 16 := by
      have : (p >>> 16) % 256 < 256 := Nat.mod_lt _ (by decide)
      simp only [Nat.shiftLeft_eq]
      omega
    have h1 : (p >>> 8) % 256 < 2 ^ 16 := by
      have : (p >>> 8) % 256 < 256 := Nat.mod_lt _ (by decide)
      omega
    have he : deriveNodeId p = (((p >>> 16) % 256) <<< 8 ||| ((p >>> 8) % 256)) := by
      simp [deriveNodeId, h]
    rw [he]
    exact Nat.or_lt_two_pow h2 h1
  · intro h
    simp [deriveNodeId, h]

theorem deriveNodeId_mid_bytes_witness :
    (0x00120034 < 2 ^ 32 ∧
     ((((0x00120034 >>> 16) % 256) <<< 8 ||| ((0x00120034 >>> 8) % 256)) ≠ 0)) ∧
    deriveNodeId 0x00120034 =
      (((0x00120034 >>> 16) % 256) <<< 8 ||| ((0x00120034 >>> 8) % 256)) ∧
    deriveNodeId 0x000000FF = 0x000000FF := by
  refine ⟨by decide, ?_, ?_⟩
  · exact ((deriveNodeId_mid_bytes 0x00120034 (by decide)).1 (by decide)).1
  · exact (deriveNodeId_mid_bytes 0x00120034 (by decide)).2.2.2

theorem stepEntry_fst_key (t : BandThresholds) (imgs : Band → Nat)
    (dict : List (Nat × Int)) (e : Nat × Device) :
    ((stepEntry t imgs dict e).1).1 = e.1 := by
  unfold stepEntry
  rcases h : dict.lookup e.1 with _ | lvl <;> simp
  · rcases applyUpdate e.2 staleKwargs with _ | ⟨args, d⟩ <;> simp
  · rcases applyUpdate e.2 (updateKwargs t imgs lvl) with _ | ⟨args, d⟩ <;> simp

theorem stepEntry_act_unit (t : BandThresholds) (imgs : Band → Nat)
    (dict : List (Nat × Int)) (e : Nat × Device) (a : DevAction)
    (h : (stepEntry t imgs dict e).2 = some a) : a.unit = e.1 := by
  unfold stepEntry at h
  repeat' split at h
  all_goals simp only [Option.some.injEq] at h
  all_goals try subst h
  all_goals simp_all [DevAction.unit]

theorem applyUpdate_stale_timedOut (d : Device) (h : d.timedOut = true) :
    applyUpdate d staleKwargs = none := by
  obtain ⟨nv, sv, td, im⟩ := d
  subst h
  simp [applyUpdate, staleKwargs]

theorem applyUpdate_stale_mark (d : Device) (h : d.timedOut = false) :
    applyUpdate d staleKwargs =
      some (⟨some d.nValue, some d.sValue, some true, none⟩,
            ⟨d.nValue, d.sValue, true, d.image⟩) := by
  obtain ⟨nv, sv, td, im⟩ := d
  subst h
  simp [applyUpdate, staleKwargs]

theorem applyUpdate_canon_none_iff (t : BandThresholds) (imgs : Band → Nat)
    (lvl : Int) (d : Device) :
    applyUpdate d (updateKwargs t imgs lvl) = none ↔
      d = canonDevice t imgs d.nValue lvl := by
  obtain ⟨nv, sv, td, im⟩ := d
  by_cases hs : toString lvl = sv <;> by_cases ht : td = false <;>
    by_cases hi : imgs (classify t lvl) = im <;>
    simp_all [applyUpdate, updateKwargs, canonDevice]
  all_goals try exact fun hh => hi hh.symm
  all_goals try exact fun hh => hs hh.symm
  all_goals exact fun hh hh2 => hi hh2.symm

theorem applyUpdate_canon_dev (t : BandThresholds) (imgs : Band → Nat)
    (lvl : Int) (d : Device) (p : UpdateArgs × Device)
    (h : applyUpdate d (updateKwargs t imgs lvl) = some p) :
    p.2 = canonDevice t imgs d.nValue lvl := by
  obtain ⟨nv, sv, td, im⟩ := d
  by_cases hs : toString lvl = sv <;> by_cases ht : td = false <;>
    by_cases hi : imgs (classify t lvl) = im <;>
    simp_all [applyUpdate, updateKwargs, canonDevice] <;>
    (try rw [← h]) <;> simp_all

theorem applyUpdate_reappear (t : BandThresholds) (imgs : Band → Nat)
    (lvl : Int) (nv : Int) :
    applyUpdate ⟨nv, toString lvl, true, imgs (classify t lvl)⟩
        (updateKwargs t imgs lvl) =
      some (⟨some nv, some (toString lvl), some false, none⟩,
            ⟨nv, toString lvl, false, imgs (classify t lvl)⟩) := by
  simp [applyUpdate, updateKwargs]

theorem stepEntry_canon_fst (t : BandThresholds) (imgs : Band → Nat)
    (dict : List (Nat × Int)) (u : Nat) (d : Device) (lvl : Int)
    (h : dict.lookup u = some lvl) :
    (stepEntry t imgs dict (u, d)).1 = (u, canonDevice t imgs d.nValue lvl) := by
  unfold stepEntry
  simp only [h]
  rcases hau : applyUpdate d (updateKwargs t imgs lvl) with _ | p
  · have := (applyUpdate_canon_none_iff t imgs lvl d).mp hau
    simp [← this]
  · obtain ⟨args, d2⟩ := p
    have := applyUpdate_canon_dev t imgs lvl d (args, d2) hau
    simp at this
    simp [this]

theorem stepEntry_canon_none_iff (t : BandThresholds) (imgs : Band → Nat)
    (dict : List (Nat × Int)) (u : Nat) (d : Device) (lvl : Int)
    (h : dict.lookup u = some lvl) :
    ((stepEntry t imgs dict (u, d)).2 = none ↔
      d = canonDevice t imgs d.nValue lvl) := by
  unfold stepEntry
  simp only [h]
  rcases hau : applyUpdate d (updateKwargs t imgs lvl) with _ | p
  · have hc := (applyUpdate_canon_none_iff t imgs lvl d).mp hau
    simp
    exact hc
  · obtain ⟨args, d2⟩ := p
    simp
    intro he
    have := (applyUpdate_canon_none_iff t imgs lvl d).mpr he
    rw [this] at hau
    exact Option.noConfusion hau

theorem stepEntry_stale_none (t : BandThresholds) (imgs : Band → Nat)
    (dict : List (Nat × Int)) (u : Nat) (d : Device)
    (h : dict.lookup u = none) (ht : d.timedOut = true) :
    stepEntry t imgs dict (u, d) = ((u, d), none) := by
  unfold stepEntry
  simp only [h, applyUpdate_stale_timedOut d ht]

theorem stepEntry_stale_mark (t : BandThresholds) (imgs : Band → Nat)
    (dict : List (Nat × Int)) (u : Nat) (d : Device)
    (h : dict.lookup u = none) (ht : d.timedOut = false) :
    stepEntry t imgs dict (u, d) =
      ((u, ⟨d.nValue, d.sValue, true, d.image⟩),
       some (DevAction.update u ⟨some d.nValue, some d.sValue, some true, none⟩)) := by
  unfold stepEntry
  simp only [h, applyUpdate_stale_mark d ht]

theorem stepEntry_reappear (t : BandThresholds) (imgs : Band → Nat)
    (dict : List (Nat × Int)) (u : Nat) (nv : Int) (lvl : Int)
    (h : dict.lookup u = some lvl) :
    stepEntry t imgs dict (u, ⟨nv, toString lvl, true, imgs (classify t lvl)⟩) =
      ((u, ⟨nv, toString lvl, false, imgs (classify t lvl)⟩),
       some (DevAction.update u ⟨some nv, some (toString lvl), some false, none⟩)) := by
  unfold stepEntry
  simp only [h, applyUpdate_reappear t imgs lvl nv]

theorem lookup_append_isSome {β : Type} (u : Nat) (l1 l2 : List (Nat × β)) :
    ((l1 ++ l2).lookup u).isSome ↔ (l1.lookup u).isSome ∨ (l2.lookup u).isSome := by
  induction l1 with
  | nil => simp
  | cons e rest ih =>
    obtain ⟨k, v⟩ := e
    by_cases hk : u = k
    · subst hk
      simp [List.lookup_cons]
    · simp [List.lookup_cons, beq_false_of_ne hk, ih]

theorem entriesFor_cons_eq (u : Nat) (e : Nat × Device) (l : List (Nat × Device))
    (h : e.1 = u) : entriesFor u (e :: l) = e :: entriesFor u l := by
  simp [entriesFor, List.filter_cons, h]

theorem entriesFor_cons_ne (u : Nat) (e : Nat × Device) (l : List (Nat × Device))
    (h : e.1 ≠ u) : entriesFor u (e :: l) = entriesFor u l := by
  simp [entriesFor, List.filter_cons, beq_false_of_ne h]

theorem actionsFor_cons_eq (u : Nat) (a : DevAction) (acts : List DevAction)
    (h : DevAction.unit a = u) : actionsFor u (a :: acts) = a :: actionsFor u acts := by
  simp [actionsFor, List.filter_cons, h]

theorem actionsFor_cons_ne (u : Nat) (a : DevAction) (acts : List DevAction)
    (h : DevAction.unit a ≠ u) : actionsFor u (a :: acts) = actionsFor u acts := by
  simp [actionsFor, List.filter_cons, beq_false_of_ne h]

theorem entriesFor_append (u : Nat) (l1 l2 : List (Nat × Device)) :
    entriesFor u (l1 ++ l2) = entriesFor u l1 ++ entriesFor u l2 := by
  simp [entriesFor, List.filter_append]

theorem actionsFor_append (u : Nat) (a1 a2 : List DevAction) :
    actionsFor u (a1 ++ a2) = actionsFor u a1 ++ actionsFor u a2 := by
  simp [actionsFor, List.filter_append]

theorem entriesFor_mem (u : Nat) (l : List (Nat × Device)) :
    ∀ e ∈ entriesFor u l, e.1 = u ∧ e ∈ l := by
  intro e he
  have h := List.mem_filter.mp he
  refine ⟨by simpa using h.2, h.1⟩

theorem entriesFor_nil_iff (u : Nat) (l : List (Nat × Device)) :
    entriesFor u l = [] ↔ l.lookup u = none := by
  induction l with
  | nil => simp [entriesFor]
  | cons e rest ih =>
    obtain ⟨k, v⟩ := e
    by_cases hk : k = u
    · rw [entriesFor_cons_eq u (k, v) rest hk]
      subst hk
      simp [List.lookup_cons]
    · rw [entriesFor_cons_ne u (k, v) rest hk, ih]
      simp [List.lookup_cons, beq_false_of_ne (fun he => hk he.symm)]

theorem entriesFor_ne_nil_iff (u : Nat) (l : List (Nat × Device)) :
    entriesFor u l ≠ [] ↔ (l.lookup u).isSome := by
  rw [Ne, entriesFor_nil_iff, Option.isSome_iff_ne_none]

theorem actionsFor_eq_nil (u : Nat) (acts : List DevAction)
    (h : ∀ a ∈ acts, DevAction.unit a ≠ u) : actionsFor u acts = [] := by
  simp only [actionsFor, List.filter_eq_nil_iff]
  intro a ha
  simpa using h a ha

theorem entriesFor_single_of_nodup (u : Nat) (l : List (Nat × Device))
    (h : (l.map Prod.fst).Nodup) :
    entriesFor u l = [] ∨ ∃ e, entriesFor u l = [e] := by
  induction l with
  | nil => exact Or.inl rfl
  | cons e rest ih =>
    rw [List.map_cons, List.nodup_cons] at h
    by_cases hk : e.1 = u
    · right
      refine ⟨e, ?_⟩
      have hnil : entriesFor u rest = [] := by
        by_contra hne
        obtain ⟨e2, he2⟩ := List.exists_mem_of_ne_nil _ hne
        obtain ⟨hk2, hmem⟩ := entriesFor_mem u rest e2 he2
        refine h.1 ?_
        rw [hk, ← hk2]
        exact List.mem_map_of_mem Prod.fst hmem
      rw [entriesFor_cons_eq u e rest hk, hnil]
    · rw [entriesFor_cons_ne u e rest hk]
      exact ih h.2

theorem entriesFor_map_of_key {f : (Nat × Device) → (Nat × Device)}
    (hf : ∀ e, (f e).1 = e.1) (u : Nat) (l : List (Nat × Device)) :
    entriesFor u (l.map f) = (entriesFor u l).map f := by
  induction l with
  | nil => rfl
  | cons e rest ih =>
    rw [List.map_cons]
    by_cases hk : e.1 = u
    · rw [entriesFor_cons_eq u (f e) _ (by rw [hf e]; exact hk),
        entriesFor_cons_eq u e rest hk, List.map_cons, ih]
    · rw [entriesFor_cons_ne u (f e) _ (by rw [hf e]; exact hk),
        entriesFor_cons_ne u e rest hk, ih]

theorem actionsFor_filterMap_of_unit {f : (Nat × Device) → Option DevAction}
    (hf : ∀ e a, f e = some a → DevAction.unit a = e.1) (u : Nat)
    (l : List (Nat × Device)) :
    actionsFor u (l.filterMap f) = (entriesFor u l).filterMap f := by
  induction l with
  | nil => rfl
  | cons e rest ih =>
    rcases hfe : f e with _ | a
    · rw [List.filterMap_cons_none hfe]
      by_cases hk : e.1 = u
      · rw [entriesFor_cons_eq u e rest hk, List.filterMap_cons_none hfe, ih]
      · rw [entriesFor_cons_ne u e rest hk, ih]
    · have ha := hf e a hfe
      rw [List.filterMap_cons_some hfe]
      by_cases hk : e.1 = u
      · rw [actionsFor_cons_eq u a _ (ha.trans hk), entriesFor_cons_eq u e rest hk,
          List.filterMap_cons_some hfe, ih]
      · rw [actionsFor_cons_ne u a _ (by rw [ha]; exact hk),
          entriesFor_cons_ne u e rest hk, ih]

theorem filterMap_eq_nil_of_none {β : Type} {f : (Nat × Device) → Option β}
    (l : List (Nat × Device)) (h : ∀ e ∈ l, f e = none) : l.filterMap f = [] := by
  induction l with
  | nil => rfl
  | cons e rest ih =>
    rw [List.filterMap_cons_none (h e (List.mem_cons_self e rest))]
    exact ih (fun e2 he2 => h e2 (List.mem_cons_of_mem e he2))

theorem keys_mem_entriesFor_ne_nil (u : Nat) (l : List (Nat × Device))
    (hm : u ∈ l.map Prod.fst) : entriesFor u l ≠ [] := by
  obtain ⟨e, he, hfe⟩ := List.mem_map.mp hm
  have hmem : e ∈ entriesFor u l := List.mem_filter.mpr ⟨he, by simp [hfe]⟩
  intro hnil
  rw [hnil] at hmem
  exact List.not_mem_nil e hmem

theorem createDevices_known (u : Nat) :
    ∀ (r : List MqttNode) (devices : List (Nat × Device)),
      (devices.lookup u).isSome →
      entriesFor u (createDevices devices r).1 = entriesFor u devices ∧
      (∀ a ∈ (createDevices devices r).2, DevAction.unit a ≠ u) ∧
      ((createDevices devices r).1.lookup u).isSome := by
  intro r
  induction r with
  | nil =>
    intro devices h
    exact ⟨rfl, by simp [createDevices], h⟩
  | cons n rest ih =>
    intro devices h
    rcases hb : n.minBatteryLevel with _ | lvl
    · simp only [createDevices, hb]
      exact ih devices h
    · by_cases hex : (devices.lookup n.id).isSome
      · simp only [createDevices, hb, hex, if_true]
        exact ih devices h
      · have hne : n.id ≠ u := fun he => hex (by rw [he]; exact h)
        have h2 : ((devices ++ [(n.id, newDevice)]).lookup u).isSome :=
          (lookup_append_isSome u devices _).mpr (Or.inl h)
        obtain ⟨e1, e2, e3⟩ := ih (devices ++ [(n.id, newDevice)]) h2
        simp only [createDevices, hb, hex, if_false, Bool.false_eq_true]
        refine ⟨?_, ?_, e3⟩
        · rw [e1, entriesFor_append]
          have hnil : entriesFor u [(n.id, newDevice)] = [] :=
            entriesFor_cons_ne u (n.id, newDevice) [] hne
          rw [hnil, List.append_nil]
        · intro a ha
          rcases List.mem_cons.mp ha with rfl | ha2
          · simpa [DevAction.unit] using hne
          · exact e2 a ha2

theorem createDevices_mem (u : Nat) :
    ∀ (r : List MqttNode) (devices : List (Nat × Device)),
      (∃ n ∈ r, n.id = u ∧ n.minBatteryLevel.isSome) →
      ((createDevices devices r).1.lookup u).isSome := by
  intro r
  induction r with
  | nil =>
    intro devices h
    obtain ⟨n, hn, _⟩ := h
    exact absurd hn (List.not_mem_nil n)
  | cons n rest ih =>
    intro devices h
    obtain ⟨m, hm, hmu, hmb⟩ := h
    rcases List.mem_cons.mp hm with rfl | hm2
    · rcases hb : m.minBatteryLevel with _ | lvl
      · rw [hb] at hmb
        exact absurd hmb (by simp)
      · by_cases hex : (devices.lookup m.id).isSome
        · simp only [createDevices, hb, hex, if_true]
          exact (createDevices_known u rest devices (by rw [← hmu]; exact hex)).2.2
        · simp only [createDevices, hb, hex, if_false, Bool.false_eq_true]
          have h2 : ((devices ++ [(m.id, newDevice)]).lookup u).isSome := by
            refine (lookup_append_isSome u devices _).mpr (Or.inr ?_)
            rw [← hmu]
            simp [List.lookup_cons]
          exact (createDevices_known u rest _ h2).2.2
    · rcases hb : n.minBatteryLevel with _ | lvl
      · simp only [createDevices, hb]
        exact ih devices ⟨m, hm2, hmu, hmb⟩
      · by_cases hex : (devices.lookup n.id).isSome
        · simp only [createDevices, hb, hex, if_true]
          exact ih devices ⟨m, hm2, hmu, hmb⟩
        · simp only [createDevices, hb, hex, if_false, Bool.false_eq_true]
          exact ih _ ⟨m, hm2, hmu, hmb⟩

theorem createDevices_nodup :
    ∀ (r : List MqttNode) (devices : List (Nat × Device)),
      (devices.map Prod.fst).Nodup →
      (((createDevices devices r).1.map Prod.fst).Nodup) := by
  intro r
  induction r with
  | nil => intro devices h; exact h
  | cons n rest ih =>
    intro devices h
    rcases hb : n.minBatteryLevel with _ | lvl
    · simp only [createDevices, hb]
      exact ih devices h
    · by_cases hex : (devices.lookup n.id).isSome
      · simp only [createDevices, hb, hex, if_true]
        exact ih devices h
      · simp only [createDevices, hb, hex, if_false, Bool.false_eq_true]
        refine ih _ ?_
        rw [List.map_append, List.nodup_append]
        refine ⟨h, by simp, ?_⟩
        intro x hx hx2
        simp only [List.map_cons, List.map_nil, List.mem_cons,
          List.not_mem_nil, or_false] at hx2
        subst hx2
        have hne : entriesFor n.id devices ≠ [] :=
          keys_mem_entriesFor_ne_nil n.id devices hx
        exact hex ((entriesFor_ne_nil_iff n.id devices).mp hne)

theorem dictReplace_lookup_isSome (k : Nat) (v : Int) (u : Nat) :
    ∀ d : List (Nat × Int),
      ((d.map (fun e => if e.1 == k then (k, v) else e)).lookup u).isSome ↔
        (d.lookup u).isSome := by
  intro d
  induction d with
  | nil => simp
  | cons e rest ih =>
    obtain ⟨k2, v2⟩ := e
    rw [List.map_cons]
    by_cases h2 : k2 = k
    · subst h2
      have hh : (if ((k2, v2).1 == k2) = true then (k2, v) else (k2, v2)) = (k2, v) := by
        simp
      rw [hh]
      by_cases hu : u = k2
      · subst hu
        rw [List.lookup_cons, List.lookup_cons]
        simp
      · rw [List.lookup_cons, List.lookup_cons]
        simp only [beq_false_of_ne hu]
        exact ih
    · have hh : (if ((k2, v2).1 == k) = true then (k, v) else (k2, v2)) = (k2, v2) := by
        simp [beq_false_of_ne h2]
      rw [hh]
      by_cases hu : u = k2
      · subst hu
        rw [List.lookup_cons, List.lookup_cons]
        simp
      · rw [List.lookup_cons, List.lookup_cons]
        simp only [beq_false_of_ne hu]
        exact ih

theorem dictInsert_lookup_isSome (d : List (Nat × Int)) (k : Nat) (v : Int)
    (u : Nat) :
    ((dictInsert d k v).lookup u).isSome ↔ u = k ∨ (d.lookup u).isSome := by
  unfold dictInsert
  by_cases h : (d.lookup k).isSome
  · simp only [h, if_true, dictReplace_lookup_isSome k v u d]
    constructor
    · exact fun hs => Or.inr hs
    · rintro (rfl | hs)
      · exact h
      · exact hs
  · simp only [h, if_false, Bool.false_eq_true]
    rw [lookup_append_isSome]
    by_cases hu : u = k
    · subst hu
      have hs : (([(u, v)] : List (Nat × Int)).lookup u).isSome = true := by
        rw [List.lookup_cons]
        simp
      simp [hs]
    · have hs : (([(k, v)] : List (Nat × Int)).lookup u).isSome = false := by
        rw [List.lookup_cons]
        simp [beq_false_of_ne hu]
      simp [hs, hu]

theorem buildDict_mem (u : Nat) :
    ∀ (r : List MqttNode) (d : List (Nat × Int)),
      ((buildDict d r).lookup u).isSome →
      (d.lookup u).isSome ∨ ∃ n ∈ r, n.id = u ∧ n.minBatteryLevel.isSome := by
  intro r
  induction r with
  | nil => intro d h; exact Or.inl h
  | cons n rest ih =>
    intro d h
    rcases hb : n.minBatteryLevel with _ | lvl
    · simp only [buildDict, hb] at h
      rcases ih d h with hs | ⟨m, hm, hmu, hmb⟩
      · exact Or.inl hs
      · exact Or.inr ⟨m, List.mem_cons_of_mem n hm, hmu, hmb⟩
    · simp only [buildDict, hb] at h
      rcases ih (dictInsert d n.id lvl) h with hs | ⟨m, hm, hmu, hmb⟩
      · rcases (dictInsert_lookup_isSome d n.id lvl u).mp hs with rfl | hs2
        · exact Or.inr ⟨n, List.mem_cons_self n rest, rfl, by simp [hb]⟩
        · exact Or.inl hs2
      · exact Or.inr ⟨m, List.mem_cons_of_mem n hm, hmu, hmb⟩

theorem processSnapshot_parts (t : BandThresholds) (imgs : Band → Nat)
    (devices : List (Nat × Device)) (r : List MqttNode) (u : Nat) :
    entriesFor u (processSnapshot t imgs devices r).1 =
      (entriesFor u (createDevices devices r).1).map
        (fun e => (stepEntry t imgs (buildDict [] r) e).1) ∧
    ((devices.lookup u).isSome →
      actionsFor u (processSnapshot t imgs devices r).2 =
        (entriesFor u devices).filterMap
          (fun e => (stepEntry t imgs (buildDict [] r) e).2)) ∧
    (processSnapshot t imgs devices r).1.map Prod.fst =
      (createDevices devices r).1.map Prod.fst := by
  refine ⟨?_, ?_, ?_⟩
  · exact entriesFor_map_of_key (fun e => stepEntry_fst_key t imgs _ e) u _
  · intro hk
    obtain ⟨e1, e2, _⟩ := createDevices_known u r devices hk
    show actionsFor u ((createDevices devices r).2 ++
      (createDevices devices r).1.filterMap
        (fun e => (stepEntry t imgs (buildDict [] r) e).2)) = _
    rw [actionsFor_append, actionsFor_eq_nil u _ e2,
      actionsFor_filterMap_of_unit (fun e a h => stepEntry_act_unit t imgs _ e a h) u _,
      e1, List.nil_append]
  · rw [show (processSnapshot t imgs devices r).1 =
      (createDevices devices r).1.map
        (fun e => (stepEntry t imgs (buildDict [] r) e).1) from rfl]
    rw [List.map_map]
    exact List.map_congr_left (fun e _ => stepEntry_fst_key t imgs _ e)

theorem no_action_of_canon (t : BandThresholds) (imgs : Band → Nat)
    (devices : List (Nat × Device)) (r : List MqttNode) (u : Nat) (lvl : Int)
    (hdict : (buildDict [] r).lookup u = some lvl)
    (hknown : (devices.lookup u).isSome)
    (hcanon : ∀ d, (u, d) ∈ devices → d = canonDevice t imgs d.nValue lvl) :
    actionsFor u (processSnapshot t imgs devices r).2 = [] := by
  obtain ⟨_, hacts, _⟩ := processSnapshot_parts t imgs devices r u
  rw [hacts hknown]
  refine filterMap_eq_nil_of_none _ ?_
  intro e he
  obtain ⟨hk, hmem⟩ := entriesFor_mem u devices e he
  obtain ⟨k, d⟩ := e
  simp only at hk
  subst hk
  have hc := hcanon d hmem
  exact (stepEntry_canon_none_iff t imgs (buildDict [] r) k d lvl hdict).mpr hc

/-- C2: a node already known with a stored percentage and not stale (its
device entries are canonical for that level) gets no downstream update when
the snapshot reports the identical percentage, and running the reconciler a
second time on the same snapshot emits no action at all for that node. -/
theorem reconcile_unchanged_idempotent (t : BandThresholds) (imgs : Band → Nat)
    (devices : List (Nat × Device)) (result : List MqttNode) (u : Nat) (lvl : Int)
    (hdict : (buildDict [] result).lookup u = some lvl) :
    ((devices.lookup u).isSome →
      (∀ d, (u, d) ∈ devices → d = canonDevice t imgs d.nValue lvl) →
      actionsFor u (processSnapshot t imgs devices result).2 = []) ∧
    actionsFor u (processSnapshot t imgs
        (processSnapshot t imgs devices result).1 result).2 = [] := by
  constructor
  · intro hk hcanon
    exact no_action_of_canon t imgs devices result u lvl hdict hk hcanon
  · have hcd : ((createDevices devices result).1.lookup u).isSome := by
      rcases buildDict_mem u result [] (by rw [hdict]; rfl) with hs | hex
      · simp [List.lookup] at hs
      · exact createDevices_mem u result devices hex
    have hk1 : ((processSnapshot t imgs devices result).1.lookup u).isSome := by
      rw [← entriesFor_ne_nil_iff] at hcd ⊢
      rw [(processSnapshot_parts t imgs devices result u).1]
      simp only [ne_eq, List.map_eq_nil_iff]
      exact hcd
    have hcanon1 : ∀ d, (u, d) ∈ (processSnapshot t imgs devices result).1 →
        d = canonDevice t imgs d.nValue lvl := by
      intro d hmem
      have hin : (u, d) ∈ entriesFor u (processSnapshot t imgs devices result).1 :=
        List.mem_filter.mpr ⟨hmem, by simp⟩
      rw [(processSnapshot_parts t imgs devices result u).1] at hin
      obtain ⟨e, hemem, heq⟩ := List.mem_map.mp hin
      obtain ⟨hk2, _⟩ := entriesFor_mem u _ e hemem
      obtain ⟨k, d0⟩ := e
      simp only at hk2
      subst hk2
      rw [stepEntry_canon_fst t imgs _ k d0 lvl hdict] at heq
      have h2 : canonDevice t imgs d0.nValue lvl = d := (Prod.mk.injEq _ _ _ _).mp heq |>.2
      rw [← h2]
      rfl
    exact no_action_of_canon t imgs _ result u lvl hdict hk1 hcanon1

theorem reconcile_unchanged_idempotent_witness :
    ((buildDict [] [⟨5, "node5", some 80⟩]).lookup 5 = some 80 ∧
     actionsFor 5 (processSnapshot ⟨75, 50, 25⟩ Band.severity []
       [⟨5, "node5", some 80⟩]).2 =
       [DevAction.create 5, DevAction.update 5 ⟨some 0, some "80", none, some 3⟩]) ∧
    actionsFor 5 (processSnapshot ⟨75, 50, 25⟩ Band.severity
      [(5, ⟨0, "80", false, 3⟩)] [⟨5, "node5", some 80⟩]).2 = [] ∧
    actionsFor 5 (processSnapshot ⟨75, 50, 25⟩ Band.severity
      (processSnapshot ⟨75, 50, 25⟩ Band.severity [] [⟨5, "node5", some 80⟩]).1
      [⟨5, "node5", some 80⟩]).2 = [] :=
  ⟨⟨by decide, by decide⟩,
   (reconcile_unchanged_idempotent ⟨75, 50, 25⟩ Band.severity
      [(5, ⟨0, "80", false, 3⟩)] [⟨5, "node5", some 80⟩] 5 80 (by decide)).1
     (by decide)
     (by
       intro d hd
       have h := List.mem_singleton.mp hd
       have h2 : d = (⟨0, "80", false, 3⟩ : Device) := congrArg Prod.snd h
       subst h2
       decide),
   (reconcile_unchanged_idempotent ⟨75, 50, 25⟩ Band.severity
      [] [⟨5, "node5", some 80⟩] 5 80 (by decide)).2⟩

/-- C3: a node with a reading in tick 1 that is absent in ticks 2 and 3 and
reappears in tick 4 with the same percentage gets exactly one mark-stale
update (TimedOut true) in tick 2, no action in tick 3, and exactly one
update (TimedOut false) in tick 4 even though the percentage is
unchanged. -/
theorem stale_mark_once_then_update (t : BandThresholds) (imgs : Band → Nat)
    (devices : List (Nat × Device)) (r1 r2 r3 r4 : List MqttNode)
    (u : Nat) (lvl : Int)
    (hnodup : (devices.map Prod.fst).Nodup)
    (h1 : (buildDict [] r1).lookup u = some lvl)
    (h2 : (buildDict [] r2).lookup u = none)
    (h3 : (buildDict [] r3).lookup u = none)
    (h4 : (buildDict [] r4).lookup u = some lvl) :
    ∃ nv,
      actionsFor u (processSnapshot t imgs
          (processSnapshot t imgs devices r1).1 r2).2 =
        [DevAction.update u ⟨some nv, some (toString lvl), some true, none⟩] ∧
      actionsFor u (processSnapshot t imgs
          (processSnapshot t imgs
            (processSnapshot t imgs devices r1).1 r2).1 r3).2 = [] ∧
      actionsFor u (processSnapshot t imgs
          (processSnapshot t imgs
            (processSnapshot t imgs
              (processSnapshot t imgs devices r1).1 r2).1 r3).1 r4).2 =
        [DevAction.update u ⟨some nv, some (toString lvl), some false, none⟩] := by
  -- tick 1: after processing r1 the unique entry for u is canonical
  have hcd1 : ((createDevices devices r1).1.lookup u).isSome := by
    rcases buildDict_mem u r1 [] (by rw [h1]; rfl) with hs | hex
    · simp [List.lookup] at hs
    · exact createDevices_mem u r1 devices hex
  have hnodupcd1 := createDevices_nodup r1 devices hnodup
  obtain ⟨p1, hp1⟩ : ∃ e, entriesFor u (createDevices devices r1).1 = [e] := by
    rcases entriesFor_single_of_nodup u _ hnodupcd1 with hnil | hs
    · exact absurd hnil (by
        have := (entriesFor_ne_nil_iff u (createDevices devices r1).1).mpr hcd1
        exact this)
    · exact hs
  obtain ⟨k1, d0⟩ := p1
  have hk1u : k1 = u := by
    have hm : (k1, d0) ∈ entriesFor u (createDevices devices r1).1 := by
      rw [hp1]
      exact List.mem_singleton.mpr rfl
    exact (entriesFor_mem u _ _ hm).1
  subst hk1u
  refine ⟨d0.nValue, ?_⟩
  have hent1 : entriesFor k1 (processSnapshot t imgs devices r1).1 =
      [(k1, canonDevice t imgs d0.nValue lvl)] := by
    rw [(processSnapshot_parts t imgs devices r1 k1).1, hp1, List.map_cons,
      List.map_nil, stepEntry_canon_fst t imgs _ k1 d0 lvl h1]
  have hnodup1 : ((processSnapshot t imgs devices r1).1.map Prod.fst).Nodup := by
    rw [(processSnapshot_parts t imgs devices r1 k1).2.2]
    exact hnodupcd1
  have hk1 : ((processSnapshot t imgs devices r1).1.lookup k1).isSome :=
    (entriesFor_ne_nil_iff k1 _).mp (by rw [hent1]; simp)
  -- tick 2: one mark-stale action, entry becomes the timed-out canonical
  obtain ⟨e21, _, _⟩ :=
    createDevices_known k1 r2 (processSnapshot t imgs devices r1).1 hk1
  have hstep2 := stepEntry_stale_mark t imgs (buildDict [] r2) k1
    (canonDevice t imgs d0.nValue lvl) h2 rfl
  have hacts2 : actionsFor k1 (processSnapshot t imgs
      (processSnapshot t imgs devices r1).1 r2).2 =
      [DevAction.update k1 ⟨some d0.nValue, some (toString lvl), some true, none⟩] := by
    rw [(processSnapshot_parts t imgs _ r2 k1).2.1 hk1, hent1,
      List.filterMap_cons_some (by rw [hstep2])]
    rfl
  have hent2 : entriesFor k1 (processSnapshot t imgs
      (processSnapshot t imgs devices r1).1 r2).1 =
      [(k1, ⟨d0.nValue, toString lvl, true, imgs (classify t lvl)⟩)] := by
    rw [(processSnapshot_parts t imgs _ r2 k1).1, e21, hent1, List.map_cons,
      List.map_nil]
    rw [show (stepEntry t imgs (buildDict [] r2)
      (k1, canonDevice t imgs d0.nValue lvl)).1 =
      (k1, ⟨d0.nValue, toString lvl, true, imgs (classify t lvl)⟩) from by
        rw [hstep2]
        rfl]

  have hnodup2 : ((processSnapshot t imgs
      (processSnapshot t imgs devices r1).1 r2).1.map Prod.fst).Nodup := by
    rw [(processSnapshot_parts t imgs _ r2 k1).2.2]
    exact createDevices_nodup r2 _ hnodup1
  have hk2 : ((processSnapshot t imgs
      (processSnapshot t imgs devices r1).1 r2).1.lookup k1).isSome :=
    (entriesFor_ne_nil_iff k1 _).mp (by rw [hent2]; simp)
  -- tick 3: no action, entry unchanged
  obtain ⟨e31, _, _⟩ := createDevices_known k1 r3 _ hk2
  have hstep3 := stepEntry_stale_none t imgs (buildDict [] r3) k1
    (⟨d0.nValue, toString lvl, true, imgs (classify t lvl)⟩ : Device) h3 rfl
  have hacts3 : actionsFor k1 (processSnapshot t imgs (processSnapshot t imgs
      (processSnapshot t imgs devices r1).1 r2).1 r3).2 = [] := by
    rw [(processSnapshot_parts t imgs _ r3 k1).2.1 hk2, hent2,
      List.filterMap_cons_none (by rw [hstep3]), List.filterMap_nil]
  have hent3 : entriesFor k1 (processSnapshot t imgs (processSnapshot t imgs
      (processSnapshot t imgs devices r1).1 r2).1 r3).1 =
      [(k1, ⟨d0.nValue, toString lvl, true, imgs (classify t lvl)⟩)] := by
    rw [(processSnapshot_parts t imgs _ r3 k1).1, e31, hent2, List.map_cons,
      List.map_nil]
    rw [show (stepEntry t imgs (buildDict [] r3)
      (k1, (⟨d0.nValue, toString lvl, true, imgs (classify t lvl)⟩ : Device))).1 =
      (k1, ⟨d0.nValue, toString lvl, true, imgs (classify t lvl)⟩) from by
        rw [hstep3]]
  have hk3 : ((processSnapshot t imgs (processSnapshot t imgs
      (processSnapshot t imgs devices r1).1 r2).1 r3).1.lookup k1).isSome :=
    (entriesFor_ne_nil_iff k1 _).mp (by rw [hent3]; simp)
  -- tick 4: exactly one forced update clearing the stale flag
  have hstep4 := stepEntry_reappear t imgs (buildDict [] r4) k1 d0.nValue lvl h4
  have hacts4 : actionsFor k1 (processSnapshot t imgs (processSnapshot t imgs
      (processSnapshot t imgs
        (processSnapshot t imgs devices r1).1 r2).1 r3).1 r4).2 =
      [DevAction.update k1 ⟨some d0.nValue, some (toString lvl), some false, none⟩] := by
    rw [(processSnapshot_parts t imgs _ r4 k1).2.1 hk3, hent3,
      List.filterMap_cons_some (by rw [hstep4])]
    rfl
  exact ⟨hacts2, hacts3, hacts4⟩

theorem stale_mark_once_then_update_witness :
    ((buildDict [] [⟨5, "node5", some 80⟩]).lookup 5 = some 80 ∧
     (buildDict [] ([] : List MqttNode)).lookup 5 = none) ∧
    (∃ nv,
      actionsFor 5 (processSnapshot ⟨75, 50, 25⟩ Band.severity
          (processSnapshot ⟨75, 50, 25⟩ Band.severity []
            [⟨5, "node5", some 80⟩]).1 []).2 =
        [DevAction.update 5 ⟨some nv, some (toString (80 : Int)), some true, none⟩] ∧
      actionsFor 5 (processSnapshot ⟨75, 50, 25⟩ Band.severity
          (processSnapshot ⟨75, 50, 25⟩ Band.severity
            (processSnapshot ⟨75, 50, 25⟩ Band.severity []
              [⟨5, "node5", some 80⟩]).1 []).1 []).2 = [] ∧
      actionsFor 5 (processSnapshot ⟨75, 50, 25⟩ Band.severity
          (processSnapshot ⟨75, 50, 25⟩ Band.severity
            (processSnapshot ⟨75, 50, 25⟩ Band.severity
              (processSnapshot ⟨75, 50, 25⟩ Band.severity []
                [⟨5, "node5", some 80⟩]).1 []).1 []).1
          [⟨5, "node5", some 80⟩]).2 =
        [DevAction.update 5 ⟨some nv, some (toString (80 : Int)), some false, none⟩]) :=
  ⟨⟨by decide, by decide⟩,
   stale_mark_once_then_update ⟨75, 50, 25⟩ Band.severity [] [⟨5, "node5", some 80⟩]
     [] [] [⟨5, "node5", some 80⟩] 5 80 (by decide) (by decide) (by decide)
     (by decide) (by decide)⟩

theorem processError_eq_empty (t : BandThresholds) (imgs : Band → Nat)
    (devices : List (Nat × Device)) :
    processError devices = processSnapshot t imgs devices [] := by
  unfold processError processSnapshot createDevices buildDict
  refine Prod.ext ?_ ?_
  · refine List.map_congr_left ?_
    intro e _
    unfold stepEntry
    rcases h : applyUpdate e.2 staleKwargs with _ | ⟨args, d⟩ <;> rfl
  · show devices.filterMap _ = [] ++ devices.filterMap _
    rw [List.nil_append]
    refine List.filterMap_congr ?_
    intro e _
    unfold stepEntry
    rcases h : applyUpdate e.2 staleKwargs with _ | ⟨args, d⟩ <;> rfl

theorem processError_all_stale (devices : List (Nat × Device)) :
    ∀ e ∈ (processError devices).1, e.2.timedOut = true := by
  intro e he
  unfold processError at he
  obtain ⟨e0, _, heq⟩ := List.mem_map.mp he
  rcases ht : e0.2.timedOut
  · rw [applyUpdate_stale_mark e0.2 ht] at heq
    rw [← heq]
  · rw [applyUpdate_stale_timedOut e0.2 ht] at heq
    rw [← heq]
    exact ht

theorem processError_mark_actions (devices : List (Nat × Device)) :
    (processError devices).2 = devices.filterMap (fun e =>
      if e.2.timedOut then none
      else some (DevAction.update e.1
        ⟨some e.2.nValue, some e.2.sValue, some true, none⟩)) := by
  show devices.filterMap _ = devices.filterMap _
  refine List.filterMap_congr ?_
  intro e _
  rcases ht : e.2.timedOut
  · rw [applyUpdate_stale_mark e.2 ht]
    simp
  · rw [applyUpdate_stale_timedOut e.2 ht]
    simp

theorem selectController_all_dead (now : Int) :
    ∀ controllers : List (String × Int),
      (∀ c ∈ controllers, c.2 < now - 120) →
      selectController now controllers = none := by
  intro controllers
  induction controllers with
  | nil => intro _; rfl
  | cons c rest ih =>
    intro h
    unfold selectController
    rw [if_pos (h c (List.mem_cons_self c rest))]
    exact ih (fun c2 hc2 => h c2 (List.mem_cons_of_mem c hc2))

/-- C6: a fetch error is handled exactly like an empty snapshot: the error
branch of `on_message` equals processing an empty node list, every known
device ends the tick timed out, a mark-stale update is emitted exactly for
each device not already stale, a tick whose candidate controller files are
all older than the 2-hour freshness window selects no controller (no
snapshot), and the heartbeat unconditionally schedules the next poll
`pollinterval` minutes after a due tick, so the fetch is retried. -/
theorem fetch_error_tick_no_snapshot (t : BandThresholds) (imgs : Band → Nat)
    (devices : List (Nat × Device)) :
    onMessage t imgs devices none = processError devices ∧
    processError devices = processSnapshot t imgs devices [] ∧
    (∀ e ∈ (processError devices).1, e.2.timedOut = true) ∧
    (processError devices).2 = devices.filterMap (fun e =>
      if e.2.timedOut then none
      else some (DevAction.update e.1
        ⟨some e.2.nValue, some e.2.sValue, some true, none⟩)) ∧
    (∀ now : Int, ∀ controllers : List (String × Int),
      (∀ c ∈ controllers, c.2 < now - 120) →
      selectController now controllers = none) ∧
    (∀ pollinterval nextupdate now : Int, nextupdate ≤ now →
      onHeartbeatStep pollinterval nextupdate now = (true, now + pollinterval)) := by
  refine ⟨rfl, processError_eq_empty t imgs devices,
    processError_all_stale devices, processError_mark_actions devices,
    fun now controllers h => selectController_all_dead now controllers h,
    ?_⟩
  intro pollinterval nextupdate now h
  unfold onHeartbeatStep
  rw [if_pos (by exact h)]

theorem fetch_error_tick_no_snapshot_witness :
    onMessage ⟨75, 50, 25⟩ Band.severity [(5, ⟨0, "80", false, 3⟩)] none =
      processError [(5, ⟨0, "80", false, 3⟩)] ∧
    (processError [(5, ⟨0, "80", false, 3⟩)]).2 =
      [DevAction.update 5 ⟨some 0, some "80", some true, none⟩] ∧
    ((0 : Int) < 200 - 120) ∧
    selectController 200 [("ozwcache", 0)] = none ∧
    ((0 : Int) ≤ 100) ∧
    onHeartbeatStep 60 0 100 = (true, 160) := by
  refine ⟨(fetch_error_tick_no_snapshot ⟨75, 50, 25⟩ Band.severity
      [(5, ⟨0, "80", false, 3⟩)]).1, ?_, by decide, ?_, by decide, ?_⟩
  · rw [(fetch_error_tick_no_snapshot ⟨75, 50, 25⟩ Band.severity
      [(5, ⟨0, "80", false, 3⟩)]).2.2.2.1]
    decide
  · exact (fetch_error_tick_no_snapshot ⟨75, 50, 25⟩ Band.severity
      [(5, ⟨0, "80", false, 3⟩)]).2.2.2.2.1 200 [("ozwcache", 0)]
      (by intro c hc; rcases List.mem_singleton.mp hc with rfl; decide)
  · exact (fetch_error_tick_no_snapshot ⟨75, 50, 25⟩ Band.severity
      [(5, ⟨0, "80", false, 3⟩)]).2.2.2.2.2 60 0 100 (by decide)
